import Mathlib

/-!
# Libra — Transport Arbitration & Rendezvous Engine: verification development

Shallow embedding, in Lean 4, of the parts of the Libra peer-to-peer
messenger that the specification's testable properties talk about:

* `utils/file_transfer.py` — file chunking (`split_file`, `reassemble_file`);
* `utils/crypto_utils.py` — hybrid encryption (`hybrid_encrypt`,
  `hybrid_decrypt`) and signature verification (`verify_signature`);
* `db/db_handler.py` — the pending-message retry queue
  (`retry_pending_messages` and its helpers);
* `utils/tor_manager.py` — the ephemeral onion-service cache
  (`create_ephemeral_onion_service`);
* `peer/peer_discovery.py` — the LAN beacon receive path (`_handle_packet`);
* `peer/connection_manager.py` — direct-connection arbitration
  (`attempt_direct_p2p`).

Bytes are modelled as `List Nat` (each entry a byte value).  Calls into
external libraries (the `cryptography` package, Python's `base64`/`json`
stdlib modules, the OS socket layer, the Tor controller) are modelled as
explicit parameters of the embedded functions; everything written in the
repository itself is translated statement by statement.
-/

namespace Libra

/-- A byte string, as Python `bytes`: a list of byte values. -/
abbrev Bytes := List Nat

/-! ## ChunkedTransfer — `utils/file_transfer.py`

`CHUNK_SIZE = 64 * 1024`.  `split_file` reads the file in `CHUNK_SIZE`
pieces, yielding `(seq, chunk)` pairs with `seq = 0, 1, 2, …` until a read
returns no bytes.  `reassemble_file` writes the chunks out sorted by their
sequence number (`sorted(chunks, key=lambda x: x[0])`; Python's `sorted` is
stable, which `List.mergeSort` also is).  The file contents stand in for
the file-system paths: `split_file` takes the bytes of the input file and
`reassemble_file` returns the bytes written to the output file. -/

def CHUNK_SIZE : Nat := 64 * 1024

/-- The read loop of `split_file`, with `seq` the next sequence number:
`chunk = f.read(CHUNK_SIZE); if not chunk: break; yield seq, chunk`. -/
def split_file_from (seq : Nat) (bs : Bytes) : List (Nat × Bytes) :=
  if bs = [] then []
  else (seq, bs.take CHUNK_SIZE) :: split_file_from (seq + 1) (bs.drop CHUNK_SIZE)
termination_by bs.length
decreasing_by
  simp only [List.length_drop]
  have hpos : 0 < bs.length := List.length_pos.mpr (by assumption)
  simp only [CHUNK_SIZE]
  omega

/-- `split_file(path)`: yield chunks starting at sequence number 0. -/
def split_file (bs : Bytes) : List (Nat × Bytes) :=
  split_file_from 0 bs

/-- The comparison used by `sorted(chunks, key=lambda x: x[0])`:
order by sequence number only. -/
def seqLE (a b : Nat × Bytes) : Bool := a.1 ≤ b.1

/-- `reassemble_file(chunks, output_path)`: sort by sequence number
(stably) and write every chunk in order; the returned bytes are the
contents of the output file. -/
def reassemble_file (chunks : List (Nat × Bytes)) : Bytes :=
  ((chunks.mergeSort seqLE).map Prod.snd).flatten

theorem seqLE_trans (a b c : Nat × Bytes) (hab : seqLE a b) (hbc : seqLE b c) :
    seqLE a c := by
  simp only [seqLE, decide_eq_true_eq] at *
  omega

theorem seqLE_total (a b : Nat × Bytes) : seqLE a b || seqLE b a := by
  simp only [seqLE]
  rcases Nat.le_total a.1 b.1 with h | h <;> simp [h]

theorem split_file_from_nil (seq : Nat) : split_file_from seq [] = [] := by
  rw [split_file_from]
  simp

theorem split_file_from_cons (seq : Nat) (bs : Bytes) (h : bs ≠ []) :
    split_file_from seq bs =
      (seq, bs.take CHUNK_SIZE) :: split_file_from (seq + 1) (bs.drop CHUNK_SIZE) := by
  rw [split_file_from]
  simp [h]

/-- Concatenating the chunks of `split_file_from` in produced order
recovers the input bytes. -/
theorem split_file_from_join (seq : Nat) (bs : Bytes) :
    ((split_file_from seq bs).map Prod.snd).flatten = bs := by
  by_cases h : bs = []
  · subst h; simp [split_file_from_nil]
  · rw [split_file_from_cons seq bs h]
    simp only [List.map_cons, List.flatten_cons]
    rw [split_file_from_join (seq + 1) (bs.drop CHUNK_SIZE)]
    exact List.take_append_drop CHUNK_SIZE bs
termination_by bs.length
decreasing_by
  simp only [List.length_drop]
  have hpos : 0 < bs.length := List.length_pos.mpr h
  simp only [CHUNK_SIZE]
  omega

/-- Every sequence number produced by `split_file_from seq` is at least
`seq`. -/
theorem split_file_from_seq_ge (seq : Nat) (bs : Bytes) :
    ∀ p ∈ split_file_from seq bs, seq ≤ p.1 := by
  intro p hp
  by_cases h : bs = []
  · subst h; simp [split_file_from_nil] at hp
  · rw [split_file_from_cons seq bs h] at hp
    rcases List.mem_cons.mp hp with h1 | h1
    · subst h1; exact Nat.le_refl _
    · have := split_file_from_seq_ge (seq + 1) (bs.drop CHUNK_SIZE) p h1
      omega
termination_by bs.length
decreasing_by
  simp only [List.length_drop]
  have hpos : 0 < bs.length := List.length_pos.mpr h
  simp only [CHUNK_SIZE]
  omega

/-- Sequence numbers come out strictly increasing, hence sorted for
`seqLE`. -/
theorem split_file_from_sorted (seq : Nat) (bs : Bytes) :
    (split_file_from seq bs).Pairwise (fun a b => seqLE a b) := by
  by_cases h : bs = []
  · subst h; simp [split_file_from_nil]
  · rw [split_file_from_cons seq bs h]
    refine List.pairwise_cons.mpr ⟨?_, split_file_from_sorted (seq + 1) (bs.drop CHUNK_SIZE)⟩
    intro p hp
    have := split_file_from_seq_ge (seq + 1) (bs.drop CHUNK_SIZE) p hp
    simp only [seqLE, decide_eq_true_eq]
    omega
termination_by bs.length
decreasing_by
  simp only [List.length_drop]
  have hpos : 0 < bs.length := List.length_pos.mpr h
  simp only [CHUNK_SIZE]
  omega

/-- Every chunk yielded by `split_file_from` has length at most
`CHUNK_SIZE` (the last read may be shorter). -/
theorem split_file_from_chunk_le (seq : Nat) (bs : Bytes) :
    ∀ p ∈ split_file_from seq bs, p.2.length ≤ CHUNK_SIZE := by
  intro p hp
  by_cases h : bs = []
  · subst h; simp [split_file_from_nil] at hp
  · rw [split_file_from_cons seq bs h] at hp
    rcases List.mem_cons.mp hp with h1 | h1
    · subst h1
      simp
    · exact split_file_from_chunk_le (seq + 1) (bs.drop CHUNK_SIZE) p h1
termination_by bs.length
decreasing_by
  simp only [List.length_drop]
  have hpos : 0 < bs.length := List.length_pos.mpr h
  simp only [CHUNK_SIZE]
  omega

/-- C6: For every file `F` (in particular the empty file and files
whose size is an exact multiple of the chunk size),
`reassemble_file (split_file F) = F` byte for byte; the zero-byte file
yields the empty chunk sequence; and every chunk — in particular the
last — has length at most `CHUNK_SIZE`. -/
theorem split_reassemble_roundtrip (F : Bytes) :
    reassemble_file (split_file F) = F ∧
    split_file ([] : Bytes) = [] ∧
    ∀ p ∈ split_file F, p.2.length ≤ CHUNK_SIZE := by
  refine ⟨?_, by simp [split_file, split_file_from_nil], split_file_from_chunk_le 0 F⟩
  unfold reassemble_file split_file
  rw [List.mergeSort_of_sorted (split_file_from_sorted 0 F)]
  exact split_file_from_join 0 F

/-- C10: `reassemble_file` does not deduplicate repeated sequence
numbers: for every chunk list, every supplied chunk is written (the output
length is the sum of all chunk lengths), chunks sharing a sequence number
keep their original relative order (the sort is stable: filtering the
sorted list down to one sequence number gives exactly the original filter),
and the written order is sorted by sequence number, so equal sequence
numbers end up adjacent. -/
theorem reassemble_no_dedup (chunks : List (Nat × Bytes)) :
    (reassemble_file chunks).length = (chunks.map (fun p => p.2.length)).sum ∧
    (∀ k : Nat, (chunks.mergeSort seqLE).filter (fun p => p.1 = k) =
      chunks.filter (fun p => p.1 = k)) ∧
    (chunks.mergeSort seqLE).Pairwise (fun a b => seqLE a b) := by
  refine ⟨?_, ?_, List.sorted_mergeSort seqLE_trans seqLE_total chunks⟩
  · unfold reassemble_file
    rw [List.length_flatten]
    have hperm : List.Perm (chunks.mergeSort seqLE) chunks := List.mergeSort_perm chunks seqLE
    have := (hperm.map (fun p => p.2.length)).sum_eq
    simpa [Function.comp] using this
  · intro k
    have hperm : List.Perm (chunks.mergeSort seqLE) chunks := List.mergeSort_perm chunks seqLE
    have hfperm : List.Perm ((chunks.mergeSort seqLE).filter (fun p => p.1 = k))
        (chunks.filter (fun p => p.1 = k)) := hperm.filter _
    -- the original filter is a sorted sublist of `chunks`, hence a sublist
    -- of the (stable) merge sort output
    have hsub : List.Sublist (chunks.filter (fun p => p.1 = k)) (chunks.mergeSort seqLE) := by
      apply List.sublist_mergeSort seqLE_trans seqLE_total
      · apply List.pairwise_of_forall_mem_list
        intro a ha b hb
        have ha2 := List.of_mem_filter ha
        have hb2 := List.of_mem_filter hb
        simp only [decide_eq_true_eq] at ha2 hb2
        simp only [seqLE, ha2, hb2, decide_eq_true_eq]
        omega
      · exact List.filter_sublist chunks
    have hsub2 : List.Sublist (chunks.filter (fun p => p.1 = k))
        ((chunks.mergeSort seqLE).filter (fun p => p.1 = k)) := by
      have := hsub.filter (fun p => p.1 = k)
      rwa [List.filter_filter, (by
        funext p
        simp : (fun p => (decide (p.1 = k) && decide ((p : Nat × Bytes).1 = k)))
          = fun p => decide (p.1 = k))] at this
    exact (hsub2.eq_of_length hfperm.length_eq.symm).symm

/-! ## Reliable delivery retry queue — `db/db_handler.py`

A row of the `messages` table.  `sync_status` encodes the delivery state:
`0` = Pending, `1` = Sent (set by `retry_pending_messages` on a successful
send), `2` = Delivered (set by `mark_message_delivered`). -/

structure Msg where
  message_id : String
  peer_id : String
  content : Bytes
  timestamp : Nat
  sync_status : Nat
deriving DecidableEq

/-- `ORDER BY timestamp ASC`. -/
def tsLE (a b : Msg) : Bool := a.timestamp ≤ b.timestamp

/-- `get_pending_messages_for_peer(peer_id)`:
`SELECT * FROM messages WHERE peer_id = ? AND sync_status = 0 ORDER BY timestamp ASC`. -/
def get_pending_messages_for_peer (msgs : List Msg) (peer : String) : List Msg :=
  (msgs.filter (fun m => m.peer_id = peer ∧ m.sync_status = 0)).mergeSort tsLE

/-- `update_message_status(message_id, sync_status)`:
`UPDATE messages SET sync_status = ? WHERE message_id = ?`. -/
def update_message_status (msgs : List Msg) (mid : String) (st : Nat) : List Msg :=
  msgs.map (fun m => if m.message_id = mid then { m with sync_status := st } else m)

/-- The `while retries < max_retries` loop body of `retry_pending_messages`
for one message.  `fuel` is `max_retries - retries` and `backoff` the
current backoff (seconds).  Returns `(success, attempts, sleeps)`: whether
a send succeeded, how many times `send_func` was called, and the
`time.sleep` durations in order.  The loop exits with
`retries == max_retries` (triggering the failure report) exactly when
`success` is `false`. -/
def send_retry_loop (send_func : Msg → Bool) (m : Msg) :
    Nat → Nat → Bool × Nat × List Nat
  | 0, _ => (false, 0, [])
  | fuel + 1, backoff =>
    if send_func m then (true, 1, [])
    else
      let r := send_retry_loop send_func m fuel (backoff * 2)
      (r.1, r.2.1 + 1, backoff :: r.2.2)

/-- The `for msg in pending` loop of `retry_pending_messages`, threading
the table state.  Returns the final table, a per-message
`(message_id, attempts, sleeps)` log, and the ids whose failure was
reported (printed) after `max_retries` exhausted attempts. -/
def retry_pending_go (send_func : Msg → Bool) (maxRetries : Nat) :
    List Msg → List Msg → List Msg × List (String × Nat × List Nat) × List String
  | state, [] => (state, [], [])
  | state, m :: rest =>
    let r := send_retry_loop send_func m maxRetries 1
    let state2 := if r.1 then update_message_status state m.message_id 1 else state
    let rec2 := retry_pending_go send_func maxRetries state2 rest
    (rec2.1, (m.message_id, r.2.1, r.2.2) :: rec2.2.1,
      (if r.1 then [] else [m.message_id]) ++ rec2.2.2)

/-- `retry_pending_messages(peer_id, send_func, max_retries=5)`: fetch the
pending snapshot once, then run the retry loop over it. -/
def retry_pending_messages (msgs : List Msg) (peer : String)
    (send_func : Msg → Bool) (maxRetries : Nat := 5) :
    List Msg × List (String × Nat × List Nat) × List String :=
  retry_pending_go send_func maxRetries msgs (get_pending_messages_for_peer msgs peer)

theorem send_retry_loop_false (m : Msg) :
    ∀ (fuel backoff : Nat), send_retry_loop (fun _ => false) m fuel backoff =
      (false, fuel, (List.range fuel).map (fun i => backoff * 2 ^ i))
  | 0, _ => rfl
  | fuel + 1, backoff => by
    have ih := send_retry_loop_false m fuel (backoff * 2)
    have htrace : backoff :: (List.range fuel).map (fun i => backoff * 2 * 2 ^ i) =
        (List.range (fuel + 1)).map (fun i => backoff * 2 ^ i) := by
      rw [List.range_succ_eq_map]
      simp only [List.map_cons, List.map_map, pow_zero, Nat.mul_one]
      refine congrArg (backoff :: ·) (List.map_congr_left ?_)
      intro i _
      simp only [Function.comp_apply, pow_succ]
      ring
    simp only [send_retry_loop]
    simp [ih, htrace]

theorem retry_pending_go_false (maxRetries : Nat) :
    ∀ (pending state : List Msg),
      retry_pending_go (fun _ => false) maxRetries state pending =
        (state,
         pending.map (fun m =>
           (m.message_id, maxRetries, (List.range maxRetries).map (fun i => 2 ^ i))),
         pending.map Msg.message_id)
  | [], _ => rfl
  | m :: rest, state => by
    have ih := retry_pending_go_false maxRetries rest state
    simp only [retry_pending_go, send_retry_loop_false]
    simp [ih]

theorem retry_pending_go_true (maxRetries : Nat) (h : 0 < maxRetries) :
    ∀ (pending state : List Msg),
      retry_pending_go (fun _ => true) maxRetries state pending =
        (pending.foldl (fun st m => update_message_status st m.message_id 1) state,
         pending.map (fun m => (m.message_id, 1, ([] : List Nat))),
         [])
  | [], _ => rfl
  | m :: rest, state => by
    obtain ⟨fuel, rfl⟩ : ∃ fuel, maxRetries = fuel + 1 :=
      ⟨maxRetries - 1, by omega⟩
    have ih := retry_pending_go_true (fuel + 1) h rest
      (update_message_status state m.message_id 1)
    simp only [retry_pending_go, send_retry_loop]
    simp [ih]

/-- Folding status-1 updates over a list of messages equals one map that
sets `sync_status := 1` on every row whose id occurs in the list. -/
theorem foldl_update_eq_map :
    ∀ (pending state : List Msg),
      pending.foldl (fun st m => update_message_status st m.message_id 1) state =
        state.map (fun r =>
          if r.message_id ∈ pending.map Msg.message_id then { r with sync_status := 1 } else r)
  | [], state => by simp
  | m :: rest, state => by
    rw [List.foldl_cons, foldl_update_eq_map rest]
    unfold update_message_status
    rw [List.map_map]
    refine List.map_congr_left ?_
    intro r _
    by_cases h1 : r.message_id = m.message_id
    · by_cases h2 : r.message_id ∈ rest.map Msg.message_id <;>
        simp [Function.comp, h1, h2]
    · by_cases h2 : r.message_id ∈ rest.map Msg.message_id <;>
        simp [Function.comp, h1, h2]

/-- Under unique message ids, a row id occurs among the pending snapshot
ids exactly when the row itself is pending for the peer. -/
theorem mem_pending_ids_iff (msgs : List Msg) (peer : String)
    (huniq : (msgs.map Msg.message_id).Nodup) (r : Msg) (hr : r ∈ msgs) :
    r.message_id ∈ (get_pending_messages_for_peer msgs peer).map Msg.message_id ↔
      (r.peer_id = peer ∧ r.sync_status = 0) := by
  unfold get_pending_messages_for_peer
  constructor
  · intro h
    obtain ⟨m, hm, hid⟩ := List.mem_map.mp h
    rw [List.mem_mergeSort] at hm
    have hm2 := List.mem_of_mem_filter hm
    have hprops := List.of_mem_filter hm
    simp only [decide_eq_true_eq] at hprops
    have : m = r := List.inj_on_of_nodup_map huniq hm2 hr hid
    subst this
    exact hprops
  · intro ⟨h1, h2⟩
    refine List.mem_map.mpr ⟨r, ?_, rfl⟩
    rw [List.mem_mergeSort]
    exact List.mem_filter.mpr ⟨hr, by simp [h1, h2]⟩

/-- C4: `retry_pending_messages` (with unique message ids and a
positive retry budget): with an always-succeeding `send_func`, one call
transitions every message that was Pending (`sync_status = 0`) for the
peer to Sent (`sync_status = 1`), leaving every other row untouched, with
exactly one send attempt and no backoff sleep per message and nothing
reported as failed.  With an always-failing `send_func`, the table is
returned unchanged (every message remains Pending), each pending message
gets exactly `maxRetries` send attempts with doubling backoff sleeps
`1, 2, 4, …, 2 ^ (maxRetries - 1)` seconds, and the call returns normally
with each exhausted message reported (not thrown) in the failure list. -/
theorem retry_pending_spec (msgs : List Msg) (peer : String) (maxRetries : Nat)
    (huniq : (msgs.map Msg.message_id).Nodup) (hpos : 0 < maxRetries) :
    retry_pending_messages msgs peer (fun _ => true) maxRetries =
      (msgs.map (fun r =>
         if r.peer_id = peer ∧ r.sync_status = 0 then { r with sync_status := 1 } else r),
       (get_pending_messages_for_peer msgs peer).map
         (fun m => (m.message_id, 1, ([] : List Nat))),
       []) ∧
    retry_pending_messages msgs peer (fun _ => false) maxRetries =
      (msgs,
       (get_pending_messages_for_peer msgs peer).map
         (fun m => (m.message_id, maxRetries, (List.range maxRetries).map (fun i => 2 ^ i))),
       (get_pending_messages_for_peer msgs peer).map Msg.message_id) := by
  constructor
  · unfold retry_pending_messages
    rw [retry_pending_go_true maxRetries hpos, foldl_update_eq_map]
    refine congrArg (fun x => (x, _, _)) ?_
    refine List.map_congr_left ?_
    intro r hr
    have hiff := mem_pending_ids_iff msgs peer huniq r hr
    by_cases h : r.peer_id = peer ∧ r.sync_status = 0
    · rw [if_pos (hiff.mpr h), if_pos h]
    · rw [if_neg (fun hmem => h (hiff.mp hmem)), if_neg h]
  · unfold retry_pending_messages
    rw [retry_pending_go_false]

/-- Concrete table for exercising `retry_pending_spec`: two pending
messages for peer `p`, one already-sent message for `p`, one pending
message for another peer. -/
def msgsW : List Msg :=
  [⟨"m1", "p", [104, 105], 10, 0⟩,
   ⟨"m2", "p", [121, 111], 20, 0⟩,
   ⟨"m3", "p", [111, 107], 30, 1⟩,
   ⟨"m4", "q", [63], 40, 0⟩]

theorem retry_pending_spec_witness :
    (msgsW.map Msg.message_id).Nodup ∧ 0 < 5 ∧
    (retry_pending_messages msgsW "p" (fun _ => true) 5 =
      (msgsW.map (fun r =>
         if r.peer_id = "p" ∧ r.sync_status = 0 then { r with sync_status := 1 } else r),
       (get_pending_messages_for_peer msgsW "p").map
         (fun m => (m.message_id, 1, ([] : List Nat))),
       []) ∧
    retry_pending_messages msgsW "p" (fun _ => false) 5 =
      (msgsW,
       (get_pending_messages_for_peer msgsW "p").map
         (fun m => (m.message_id, 5, (List.range 5).map (fun i => 2 ^ i))),
       (get_pending_messages_for_peer msgsW "p").map Msg.message_id)) :=
  ⟨by decide, by decide, retry_pending_spec msgsW "p" 5 (by decide) (by decide)⟩

/-! ## CryptoPrimitives — `utils/crypto_utils.py`

`hybrid_encrypt`/`hybrid_decrypt` wrap a fresh AES-GCM key under RSA-OAEP
and package the base64-encoded fields into a JSON object;
`verify_signature` wraps RSA-PSS verification in a catch-all
`try/except`.  The calls into the `cryptography` package (AES-GCM,
RSA-OAEP, RSA-PSS) and the Python stdlib (`base64`, `json`) are external
code, modelled as the fields of `CryptoPrims`: `Pub`/`Priv` are the key
object types, `W` the type of JSON-serialized package strings, `B` the
type of base64 strings.  Operations that can raise return `Option`
(`none` = exception).  The fresh AES key (`AESGCM.generate_key`) and
nonce (`os.urandom(12)`) are the explicit `aes_key`/`nonce` arguments. -/

/-- The JSON package built by `hybrid_encrypt`:
`{"enc_key": …, "nonce": …, "ciphertext": …, "aad": … | null}` with
base64-string fields. -/
structure Package (B : Type) where
  enc_key : B
  nonce : B
  ciphertext : B
  aad : Option B
deriving DecidableEq

/-- The external primitives used by `crypto_utils.py`.  `b64truthy`
models Python truthiness of a base64 string (`if pkg.get("aad"):`). -/
structure CryptoPrims (Pub Priv W B : Type) where
  aesgcm_encrypt : Bytes → Bytes → Bytes → Option Bytes → Bytes
  aesgcm_decrypt : Bytes → Bytes → Bytes → Option Bytes → Option Bytes
  rsa_oaep_encrypt : Pub → Bytes → Bytes
  rsa_oaep_decrypt : Priv → Bytes → Option Bytes
  b64encode : Bytes → B
  b64decode : B → Option Bytes
  b64truthy : B → Bool
  json_dumps : Package B → W
  json_loads : W → Option (Package B)

/-- `hybrid_encrypt(pub, plaintext, aad=None)`: AEAD-encrypt the
plaintext under the fresh key and nonce, wrap the key under RSA-OAEP,
and serialize the base64 package.  The `aad` package field follows
Python truthiness: `b64encode(aad) if aad else None`, so both `None`
and the empty byte string store `null`. -/
def hybrid_encrypt {Pub Priv W B : Type} (C : CryptoPrims Pub Priv W B) (pub : Pub)
    (plaintext : Bytes) (aad : Option Bytes) (aes_key nonce : Bytes) : W :=
  let ciphertext := C.aesgcm_encrypt aes_key nonce plaintext aad
  let enc_key := C.rsa_oaep_encrypt pub aes_key
  C.json_dumps
    { enc_key := C.b64encode enc_key
      nonce := C.b64encode nonce
      ciphertext := C.b64encode ciphertext
      aad := match aad with
        | some a => if a = [] then none else some (C.b64encode a)
        | none => none }

/-- `hybrid_decrypt(priv, package_json, aad=None)`: parse the JSON
package, base64-decode the fields, pick up the packaged `aad` only when
the caller passed none and the package field is truthy, unwrap the AES
key, and open the AEAD ciphertext.  `none` is any raised exception
(`CryptoFailure`). -/
def hybrid_decrypt {Pub Priv W B : Type} (C : CryptoPrims Pub Priv W B) (priv : Priv)
    (package_json : W) (aad : Option Bytes) : Option Bytes :=
  match C.json_loads package_json with
  | none => none
  | some pkg =>
    match C.b64decode pkg.enc_key, C.b64decode pkg.nonce, C.b64decode pkg.ciphertext with
    | some enc_key, some nonce, some ciphertext =>
      let aadStep : Option (Option Bytes) :=
        match aad, pkg.aad with
        | none, some s => if C.b64truthy s then (C.b64decode s).map some else some none
        | a, _ => some a
      (match aadStep with
      | none => none
      | some aad2 =>
        match C.rsa_oaep_decrypt priv enc_key with
        | none => none
        | some aes_key => C.aesgcm_decrypt aes_key nonce ciphertext aad2)
    | _, _, _ => none

/-- C3: Hybrid round trip: for every plaintext `P`, every optional
associated data `aad`, every fresh AES key and nonce, and every keypair
`(priv, pub)` — a pair for which RSA-OAEP unwrapping inverts wrapping —
given that the external primitives satisfy their contracts (JSON and
base64 decoding invert encoding, AES-GCM opens its own sealing under
matching key, nonce and aad),
`hybrid_decrypt(priv, hybrid_encrypt(pub, P, aad), aad) = P`. -/
theorem hybrid_roundtrip {Pub Priv W B : Type} (C : CryptoPrims Pub Priv W B)
    (pub : Pub) (priv : Priv)
    (hjson : ∀ p, C.json_loads (C.json_dumps p) = some p)
    (hb64 : ∀ bs, C.b64decode (C.b64encode bs) = some bs)
    (hrsa : ∀ m, C.rsa_oaep_decrypt priv (C.rsa_oaep_encrypt pub m) = some m)
    (haes : ∀ k n pt a, C.aesgcm_decrypt k n (C.aesgcm_encrypt k n pt a) a = some pt)
    (P : Bytes) (aad : Option Bytes) (aes_key nonce : Bytes) :
    hybrid_decrypt C priv (hybrid_encrypt C pub P aad aes_key nonce) aad = some P := by
  unfold hybrid_encrypt hybrid_decrypt
  rw [hjson]
  cases aad with
  | none => simp [hb64, hrsa, haes]
  | some a => simp [hb64, hrsa, haes]

/-- Toy instantiation of the external primitives (identity cipher,
identity codecs) showing the contracts of `hybrid_roundtrip` are
satisfiable; keys are trivial, the wire type is the package itself. -/
def CW : CryptoPrims Unit Unit (Package Bytes) Bytes where
  aesgcm_encrypt := fun _k _n pt _a => pt
  aesgcm_decrypt := fun _k _n ct _a => some ct
  rsa_oaep_encrypt := fun _ m => m
  rsa_oaep_decrypt := fun _ c => some c
  b64encode := id
  b64decode := some
  b64truthy := fun b => !b.isEmpty
  json_dumps := id
  json_loads := some

theorem hybrid_roundtrip_witness :
    hybrid_decrypt CW () (hybrid_encrypt CW () [1, 2, 3] (some [7]) [9, 9] [5]) (some [7]) =
      some [1, 2, 3] :=
  hybrid_roundtrip CW () () (fun _ => rfl) (fun _ => rfl) (fun _ => rfl)
    (fun _ _ _ _ => rfl) [1, 2, 3] (some [7]) [9, 9] [5]

/-- Exceptions the `cryptography` layer can raise into
`verify_signature`: `InvalidSignature` on a mismatched signature,
`TypeError`/`ValueError` on malformed key, data or signature encoding.
All extend Python `Exception`, so all are caught by the bare
`except Exception` in `verify_signature`. -/
inductive PyExc where
  | invalidSignature
  | typeError (msg : String)
  | valueError (msg : String)
deriving DecidableEq

/-- `verify_signature(pub, data, signature)`: call `pub.verify` (RSA-PSS
over SHA-256, modelled by the `pssVerify` primitive, which returns
`Except.error` for whatever it raises) inside `try: …; return True;
except Exception: return False`. -/
def verify_signature (Pub : Type) (pssVerify : Pub → Bytes → Bytes → Except PyExc Unit)
    (pub : Pub) (data sig : Bytes) : Except PyExc Bool :=
  match pssVerify pub data sig with
  | Except.ok _ => Except.ok true
  | Except.error _ => Except.ok false

/-- C5: `verify_signature` always returns a boolean and never raises:
whatever the RSA-PSS primitive does — accept, reject with
`InvalidSignature` (a signature mismatch), or raise `TypeError`/
`ValueError` (malformed input) — the function returns `Except.ok` of a
boolean that is `true` exactly when the primitive accepted.  In
particular it never raises on a signature mismatch, and the set of
inputs on which it raises is empty, hence contained in the malformed
ones. -/
theorem verify_signature_no_raise (Pub : Type)
    (pssVerify : Pub → Bytes → Bytes → Except PyExc Unit)
    (pub : Pub) (data sig : Bytes) :
    ∃ b : Bool, verify_signature Pub pssVerify pub data sig = Except.ok b ∧
      (b = true ↔ (pssVerify pub data sig).isOk = true) := by
  unfold verify_signature
  cases h : pssVerify pub data sig with
  | ok u => exact ⟨true, rfl, by simp [h, Except.isOk, Except.toBool]⟩
  | error e => exact ⟨false, rfl, by simp [h, Except.isOk, Except.toBool]⟩

/-! ## TorGateway — `utils/tor_manager.py`

`create_ephemeral_onion_service(port, peer_id=None)` consults the
`circuit_cache` dict (`{peer_id: service_id}`); on a hit it returns the
cached service id as `<id>.onion` with `None` for the private key; on a
miss it asks the controller for a new ephemeral hidden service, caches
the returned service id under `peer_id` (when `peer_id` is truthy) and
returns `(<service_id>.onion, private_key)`.  The Tor controller is
external: it is modelled as a stream `fresh : Nat → String × String` of
`(service_id, private_key)` results, indexed by how many services this
manager has created. -/

/-- The `TorManager` state relevant to
`create_ephemeral_onion_service`: whether `start_tor` connected the
controller, the `circuit_cache` dict, and the number of controller-side
creations so far (the index into the controller's result stream). -/
structure TorState where
  started : Bool
  circuit_cache : List (String × String)
  created : Nat
deriving DecidableEq

/-- Python dict membership/lookup: `peer_id in cache` / `cache[peer_id]`. -/
def dictGet (cache : List (String × String)) (k : String) : Option String :=
  match cache with
  | [] => none
  | (k2, v) :: rest => if k2 = k then some v else dictGet rest k

/-- Python dict assignment `cache[key] = value` (replace or append). -/
def dictPut (cache : List (String × String)) (k v : String) : List (String × String) :=
  match cache with
  | [] => [(k, v)]
  | (k2, v2) :: rest => if k2 = k then (k2, v) :: rest else (k2, v2) :: dictPut rest k v

/-- `create_ephemeral_onion_service(port, peer_id=None)`.  `_port` only
reaches the controller call and does not influence the returned address
or the cache.  `if peer_id and peer_id in self.circuit_cache` uses
Python truthiness, so the empty string behaves like `None`. -/
def create_ephemeral_onion_service (fresh : Nat → String × String) (st : TorState)
    (_port : Nat) (peer_id : Option String) :
    Except String ((String × Option String) × TorState) :=
  if st.started = false then
    Except.error "Tor is not started. Call start_tor() first."
  else
    match peer_id with
    | some pid =>
      if pid ≠ "" then
        match dictGet st.circuit_cache pid with
        | some circuit_id =>
          Except.ok ((circuit_id ++ ".onion", none), st)
        | none =>
          let result := fresh st.created
          Except.ok ((result.1 ++ ".onion", some result.2),
            { st with circuit_cache := dictPut st.circuit_cache pid result.1,
                      created := st.created + 1 })
      else
        let result := fresh st.created
        Except.ok ((result.1 ++ ".onion", some result.2),
          { st with created := st.created + 1 })
    | none =>
      let result := fresh st.created
      Except.ok ((result.1 ++ ".onion", some result.2),
        { st with created := st.created + 1 })

theorem dictGet_dictPut_self (cache : List (String × String)) (k v : String) :
    dictGet (dictPut cache k v) k = some v := by
  induction cache with
  | nil => simp [dictPut, dictGet]
  | cons p rest ih =>
    by_cases h : p.1 = k
    · simp [dictPut, dictGet, h]
    · simp [dictPut, dictGet, h, ih]

theorem append_onion_injective (s t : String) (h : s ++ ".onion" = t ++ ".onion") :
    s = t := by
  have h2 : (s ++ ".onion").data = (t ++ ".onion").data := congrArg String.data h
  rw [String.data_append, String.data_append] at h2
  exact String.ext (List.append_cancel_right h2)

/-- A call whose truthy scope key is already cached returns the cached
address and the state unchanged. -/
theorem create_ephemeral_hit (fresh : Nat → String × String) (st : TorState)
    (port : Nat) (pid sid : String) (hstart : st.started = true) (hpid : pid ≠ "")
    (hhit : dictGet st.circuit_cache pid = some sid) :
    create_ephemeral_onion_service fresh st port (some pid) =
      Except.ok ((sid ++ ".onion", none), st) := by
  unfold create_ephemeral_onion_service
  rw [hstart]
  simp [hpid, hhit]

/-- A call whose truthy scope key is not cached creates a fresh service:
it returns the next controller service id as the address together with
its private key, and caches the id under the key. -/
theorem create_ephemeral_miss (fresh : Nat → String × String) (st : TorState)
    (port : Nat) (pid : String) (hstart : st.started = true) (hpid : pid ≠ "")
    (hmiss : dictGet st.circuit_cache pid = none) :
    create_ephemeral_onion_service fresh st port (some pid) =
      Except.ok (((fresh st.created).1 ++ ".onion", some (fresh st.created).2),
        { st with circuit_cache := dictPut st.circuit_cache pid (fresh st.created).1,
                  created := st.created + 1 }) := by
  unfold create_ephemeral_onion_service
  rw [hstart]
  simp [hpid, hmiss]

/-- After a call with a truthy scope key, the gateway is still started,
the key is cached, and the returned address is the cached service id
suffixed with `.onion`. -/
theorem create_ephemeral_caches (fresh : Nat → String × String) (st : TorState)
    (port : Nat) (pid : String) (hstart : st.started = true) (hpid : pid ≠ "")
    (r : String × Option String) (st1 : TorState)
    (hcall : create_ephemeral_onion_service fresh st port (some pid) = Except.ok (r, st1)) :
    st1.started = true ∧ ∃ sid, dictGet st1.circuit_cache pid = some sid ∧
      r.1 = sid ++ ".onion" := by
  cases hget : dictGet st.circuit_cache pid with
  | some cid =>
    rw [create_ephemeral_hit fresh st port pid cid hstart hpid hget] at hcall
    have h := Except.ok.inj hcall
    have hr := congrArg Prod.fst h
    have hst := congrArg Prod.snd h
    simp only at hr hst
    subst hst
    exact ⟨hstart, cid, hget, by rw [← hr]⟩
  | none =>
    rw [create_ephemeral_miss fresh st port pid hstart hpid hget] at hcall
    have h := Except.ok.inj hcall
    have hr := congrArg Prod.fst h
    have hst := congrArg Prod.snd h
    simp only at hr hst
    subst hst
    refine ⟨hstart, (fresh st.created).1, ?_, by rw [← hr]⟩
    exact dictGet_dictPut_self st.circuit_cache pid (fresh st.created).1

/-- C7: Scope-key behaviour of `create_ephemeral_onion_service`
(with the gateway started and truthy scope keys): (1) calling twice with
the same scope key returns the identical onion address — whatever the
first call returned, a second call with the same key returns the same
address; (2) starting from a freshly started gateway (empty cache),
calls with two different scope keys return different addresses, provided
the controller never reissues a service id (`hfresh`). -/
theorem create_ephemeral_scope_key (fresh : Nat → String × String) (st : TorState)
    (port : Nat) (pid pid2 : String) (hstart : st.started = true)
    (hpid : pid ≠ "") (hpid2 : pid2 ≠ "") (hne : pid ≠ pid2)
    (hfresh : ∀ i j, i ≠ j → (fresh i).1 ≠ (fresh j).1) :
    (∀ r st1, create_ephemeral_onion_service fresh st port (some pid) = Except.ok (r, st1) →
       ∃ k2 st2, create_ephemeral_onion_service fresh st1 port (some pid) =
         Except.ok ((r.1, k2), st2)) ∧
    (∀ r1 st1 r2 st2,
       create_ephemeral_onion_service fresh ⟨true, [], 0⟩ port (some pid) =
         Except.ok (r1, st1) →
       create_ephemeral_onion_service fresh st1 port (some pid2) =
         Except.ok (r2, st2) →
       r1.1 ≠ r2.1) := by
  constructor
  · intro r st1 hcall
    obtain ⟨hstart1, sid, hcached, haddr⟩ :=
      create_ephemeral_caches fresh st port pid hstart hpid r st1 hcall
    refine ⟨none, st1, ?_⟩
    rw [create_ephemeral_hit fresh st1 port pid sid hstart1 hpid hcached, haddr]
  · intro r1 st1 r2 st2 h1 h2
    rw [create_ephemeral_miss fresh ⟨true, [], 0⟩ port pid rfl hpid rfl] at h1
    have h1e := Except.ok.inj h1
    have hr1 := congrArg Prod.fst h1e
    have hst1 := congrArg Prod.snd h1e
    simp only at hr1 hst1
    subst hst1
    rw [create_ephemeral_miss fresh _ port pid2 rfl hpid2
      (by simp [dictPut, dictGet, hne])] at h2
    have h2e := Except.ok.inj h2
    have hr2 := congrArg Prod.fst h2e
    simp only at hr2
    rw [← hr1, ← hr2]
    simp only [Nat.zero_add]
    intro hcontra
    exact hfresh 0 1 (by omega) (append_onion_injective _ _ hcontra)

/-- Controller stream for the witnesses: pairwise-distinct service ids
(`i` copies of `a`). -/
def freshW : Nat → String × String :=
  fun i => (String.mk (List.replicate i 'a'), "privkey")

theorem freshW_inj : ∀ i j, i ≠ j → (freshW i).1 ≠ (freshW j).1 := by
  intro i j hij h
  apply hij
  have h2 := congrArg (fun s => s.data.length) h
  simpa [freshW] using h2

theorem create_ephemeral_scope_key_witness :
    ((⟨true, [], 0⟩ : TorState).started = true ∧ "peerA" ≠ "" ∧ "peerB" ≠ "" ∧
      "peerA" ≠ "peerB") ∧
    ((∀ r st1, create_ephemeral_onion_service freshW ⟨true, [], 0⟩ 8080 (some "peerA") =
         Except.ok (r, st1) →
       ∃ k2 st2, create_ephemeral_onion_service freshW st1 8080 (some "peerA") =
         Except.ok ((r.1, k2), st2)) ∧
    (∀ r1 st1 r2 st2,
       create_ephemeral_onion_service freshW ⟨true, [], 0⟩ 8080 (some "peerA") =
         Except.ok (r1, st1) →
       create_ephemeral_onion_service freshW st1 8080 (some "peerB") =
         Except.ok (r2, st2) →
       r1.1 ≠ r2.1)) :=
  ⟨⟨rfl, by decide, by decide, by decide⟩,
   create_ephemeral_scope_key freshW ⟨true, [], 0⟩ 8080 "peerA" "peerB" rfl
     (by decide) (by decide) (by decide) freshW_inj⟩

/-- C9: When the scope key hits the cache, the returned private key
is `None`: from any started state where `pid` is not yet cached, the
first call returns the fresh service's private key (`some`), and the
immediately repeated call with the same `pid` returns the same address
with `none` for the private key — the private key is only available from
the call that created the service. -/
theorem create_ephemeral_cache_hit_no_key (fresh : Nat → String × String) (st : TorState)
    (port : Nat) (pid : String) (hstart : st.started = true) (hpid : pid ≠ "")
    (hmiss : dictGet st.circuit_cache pid = none) :
    ∃ sid key st1,
      create_ephemeral_onion_service fresh st port (some pid) =
        Except.ok ((sid ++ ".onion", some key), st1) ∧
      create_ephemeral_onion_service fresh st1 port (some pid) =
        Except.ok ((sid ++ ".onion", none), st1) := by
  refine ⟨(fresh st.created).1, (fresh st.created).2,
    { st with circuit_cache := dictPut st.circuit_cache pid (fresh st.created).1,
              created := st.created + 1 },
    create_ephemeral_miss fresh st port pid hstart hpid hmiss, ?_⟩
  exact create_ephemeral_hit fresh _ port pid (fresh st.created).1 hstart hpid
    (dictGet_dictPut_self st.circuit_cache pid (fresh st.created).1)

theorem create_ephemeral_cache_hit_no_key_witness :
    ((⟨true, [], 0⟩ : TorState).started = true ∧ "peerC" ≠ "" ∧
      dictGet (⟨true, [], 0⟩ : TorState).circuit_cache "peerC" = none) ∧
    (∃ sid key st1,
      create_ephemeral_onion_service freshW ⟨true, [], 0⟩ 9000 (some "peerC") =
        Except.ok ((sid ++ ".onion", some key), st1) ∧
      create_ephemeral_onion_service freshW st1 9000 (some "peerC") =
        Except.ok ((sid ++ ".onion", none), st1)) :=
  ⟨⟨rfl, by decide, rfl⟩,
   create_ephemeral_cache_hit_no_key freshW ⟨true, [], 0⟩ 9000 "peerC" rfl (by decide) rfl⟩

/-! ## DiscoveryBeacon — `peer/peer_discovery.py`

`_handle_packet(data, addr)` parses the outer JSON envelope
(`{payload: base64, signature: base64}`), base64-decodes both, parses
the inner payload JSON, extracts `peer_id`, `public_key` (base64 PEM)
and `timestamp`, verifies the signature against the embedded public key,
and on success upserts the peer into the DB (`add_peer`, then
`update_peer_status`).  The whole body is wrapped in
`try: … except Exception: return`, and a failed verification executes a
bare `return`, so the only observable effect of the handler is the DB
state: the `PeerDiscovery` instance has no drop counter and writes no
other field on this path. -/

/-- A row of the `peers` table (`db/db_handler.py`). -/
structure PeerRow where
  peer_id : String
  nickname : Option String
  public_key : Option String
  fingerprint : Option String
  last_seen : Option Nat
deriving DecidableEq

/-- `add_peer`: `INSERT OR IGNORE INTO peers (peer_id, nickname,
public_key, fingerprint) VALUES (?, ?, ?, ?)` — a row whose `peer_id`
already exists is left untouched. -/
def add_peer (db : List PeerRow) (pid : String)
    (nickname public_key fingerprint : Option String) : List PeerRow :=
  if db.any (fun row => row.peer_id = pid) then db
  else db ++ [⟨pid, nickname, public_key, fingerprint, none⟩]

/-- `update_peer_status(peer_id, last_seen)` = `update_peer(peer_id,
last_seen=last_seen)`: `UPDATE peers SET last_seen = ? WHERE peer_id = ?`. -/
def update_peer_status (db : List PeerRow) (pid : String) (last_seen : Nat) : List PeerRow :=
  db.map (fun row => if row.peer_id = pid then { row with last_seen := some last_seen } else row)

/-- The fields `_handle_packet` extracts from a well-formed beacon
datagram. -/
structure ParsedBeacon where
  payload : Bytes
  signature : Bytes
  peer_id : String
  public_key_pem : Bytes
  timestamp : Nat

/-- The external parsing/crypto surface of `_handle_packet`: `parse`
collapses `json.loads` of the envelope, the two `base64.b64decode`
calls, `json.loads` of the payload and the field lookups (`none` = any
of them raised); `verify_beacon pem payload sig` is
`verify_signature(load_public_from_pem(pem), payload, sig)` (`none` =
`load_pem_public_key` raised on a malformed PEM; `verify_signature`
itself returns a boolean and never raises); `utf8` is
`bytes.decode("utf-8")` (`none` = `UnicodeDecodeError`). -/
structure BeaconEnv where
  parse : Bytes → Option ParsedBeacon
  verify_beacon : Bytes → Bytes → Bytes → Option Bool
  utf8 : Bytes → Option String

/-- `PeerDiscovery._handle_packet(data, addr)`.  The return value is the
complete post-call observable state: the peers table.  Every failure
path (`except Exception: return` or the `if not ok: return`) leaves it
unchanged; nothing else is written — in particular no drop counter. -/
def handle_packet (env : BeaconEnv) (db : List PeerRow) (data : Bytes) : List PeerRow :=
  match env.parse data with
  | none => db
  | some b =>
    match env.verify_beacon b.public_key_pem b.payload b.signature with
    | none => db
    | some false => db
    | some true =>
      match env.utf8 b.public_key_pem with
      | none => db
      | some pem_str =>
        update_peer_status (add_peer db b.peer_id none (some pem_str) none)
          b.peer_id b.timestamp

/-- A parsing environment under which the concrete datagram `[0]` is
malformed (the envelope fails to parse), while everything else behaves
normally. -/
def envMalformedW : BeaconEnv where
  parse := fun _ => none
  verify_beacon := fun _ _ _ => some true
  utf8 := fun _ => some "pem"

/-- A one-row peers table for exercising the drop path. -/
def dbW : List PeerRow := [⟨"existing-peer", none, some "pk", none, some 41⟩]

/-- C8 counterexample: A malformed beacon datagram is dropped with
no state change at all: the complete observable result of
`_handle_packet` on the malformed datagram `[0]` equals the prior state,
and the handler returns nothing else — so no counter (nothing whatever)
records the drop, contradicting the claim that each drop is observable
by the caller via a counter. -/
theorem handle_packet_drop_unobservable_cex :
    handle_packet envMalformedW dbW [0] = dbW := rfl

/-- C8 amended: Malformed wire input at the beacon boundary — a
datagram that fails envelope/payload parsing, one whose embedded PEM
cannot be loaded, one whose signature verification fails, or one whose
PEM is not valid UTF-8 — is dropped silently with no state change; but
the drop is not observable by the caller: the handler maintains no
counter and returns only the unchanged state. -/
theorem handle_packet_malformed_dropped (env : BeaconEnv) (db : List PeerRow) (data : Bytes)
    (hbad : env.parse data = none ∨
      ∃ b, env.parse data = some b ∧
        (env.verify_beacon b.public_key_pem b.payload b.signature = none ∨
         env.verify_beacon b.public_key_pem b.payload b.signature = some false ∨
         (env.verify_beacon b.public_key_pem b.payload b.signature = some true ∧
          env.utf8 b.public_key_pem = none))) :
    handle_packet env db data = db := by
  unfold handle_packet
  rcases hbad with h | ⟨b, hb, h⟩
  · rw [h]
  · rw [hb]
    rcases h with h | h | ⟨h, h2⟩
    · simp [h]
    · simp [h]
    · simp [h, h2]

theorem handle_packet_malformed_dropped_witness :
    (envMalformedW.parse [0] = none ∨
      ∃ b, envMalformedW.parse [0] = some b ∧
        (envMalformedW.verify_beacon b.public_key_pem b.payload b.signature = none ∨
         envMalformedW.verify_beacon b.public_key_pem b.payload b.signature = some false ∨
         (envMalformedW.verify_beacon b.public_key_pem b.payload b.signature = some true ∧
          envMalformedW.utf8 b.public_key_pem = none))) ∧
    handle_packet envMalformedW dbW [0] = dbW :=
  ⟨Or.inl rfl, handle_packet_malformed_dropped envMalformedW dbW [0] (Or.inl rfl)⟩

/-! ## TransportManager — `peer/connection_manager.py`

`attempt_direct_p2p(peer_nat_info, peer_pubkey_pem, session_info,
tor_socket, timeout=7)` starts with
`result = {channel: tor, socket: tor_socket}`, submits `direct_connect`
to a thread pool and waits `timeout` seconds for it.  `direct_connect`
reads `external_ip`/`external_port` from the NAT dict and bails out with
`None` (before touching any socket) when either is falsy; otherwise
`_connect_to_peer` allocates a socket descriptor and connects, the
rendezvous payload is built, encrypted and `sendall`-ed, and the socket
is returned.  Any exception is caught, printed and turned into `None`;
no `close()` appears anywhere on this path.  On `TimeoutError` the
initial Tor result stands (the `with` block still joins the worker, so
the worker's socket activity still happens).  The socket-layer
behaviour is the `NetEnv` oracle; the trace records every descriptor
event the call performs. -/

/-- The `peer_nat_info` fields `attempt_direct_p2p` reads.  Python
truthiness: `if not host or not port` treats `None` and `""` (and port
`0`) as absent. -/
structure NatInfo where
  external_ip : Option String
  external_port : Option Int
deriving DecidableEq

/-- `not host` for `host = peer_nat_info.get('external_ip')`. -/
def truthyHost : Option String → Bool
  | none => false
  | some s => if s = "" then false else true

/-- `not port` for `port = peer_nat_info.get('external_port')`. -/
def truthyPort : Option Int → Bool
  | none => false
  | some p => if p = 0 then false else true

/-- Socket-descriptor events performed by the call. -/
inductive SockEvent where
  | opened (sock : Nat)
  | closed (sock : Nat)
deriving DecidableEq

/-- The network/crypto environment of one `attempt_direct_p2p` call:
whether `client_socket.connect` succeeds, the combined outcome of the
post-connect steps (payload build, key serialization/loading,
`hybrid_encrypt`, `sock.sendall` — `error` = any of them raised), and
whether `future.result(timeout=timeout)` raised `TimeoutError`. -/
structure NetEnv where
  connectOk : Bool
  handshake : Except String Unit
  timedOut : Bool

/-- The fate of `direct_connect()`: the socket it returns (if any) and
the descriptor events it performs.  `socket.socket()` inside
`_connect_to_peer` allocates descriptor `0` before `connect` runs, so a
refused connect has already opened it; no path closes it. -/
def direct_connect (nat : NatInfo) (env : NetEnv) : Option Nat × List SockEvent :=
  if truthyHost nat.external_ip && truthyPort nat.external_port then
    if env.connectOk then
      match env.handshake with
      | Except.ok _ => (some 0, [SockEvent.opened 0])
      | Except.error _ => (none, [SockEvent.opened 0])
    else (none, [SockEvent.opened 0])
  else (none, [])

/-- The unified channel result: exactly one of a direct socket or the
Tor fallback socket (`result['channel']`/`result['socket']`). -/
inductive Channel where
  | direct (sock : Nat)
  | tor (sock : Nat)
deriving DecidableEq

/-- `attempt_direct_p2p`: wait for `direct_connect` with a timeout; a
socket means the direct channel, `None` or `TimeoutError` leaves the
Tor fallback result in place.  Also returns the descriptor-event trace
of the whole call. -/
def attempt_direct_p2p (nat : NatInfo) (env : NetEnv) (tor_socket : Nat) :
    Channel × List SockEvent :=
  let r := direct_connect nat env
  if env.timedOut then (Channel.tor tor_socket, r.2)
  else
    match r.1 with
    | some s => (Channel.direct s, r.2)
    | none => (Channel.tor tor_socket, r.2)

/-- C1: When `peer_nat_info` lacks a (truthy) `external_ip` or
`external_port`, `attempt_direct_p2p` returns the Tor fallback channel
with the supplied fallback socket, and the direct attempt performs no
socket event at all — in particular it never opens a socket. -/
theorem attempt_direct_no_nat_fallback (nat : NatInfo) (env : NetEnv) (tor_socket : Nat)
    (h : truthyHost nat.external_ip = false ∨ truthyPort nat.external_port = false) :
    attempt_direct_p2p nat env tor_socket = (Channel.tor tor_socket, []) := by
  unfold attempt_direct_p2p direct_connect
  rcases h with h | h <;>
    · simp only [h, Bool.false_and, Bool.and_false, if_false, Bool.false_eq_true]
      cases env.timedOut <;> simp

theorem attempt_direct_no_nat_fallback_witness :
    (truthyHost (⟨none, some 40000⟩ : NatInfo).external_ip = false ∨
     truthyPort (⟨none, some 40000⟩ : NatInfo).external_port = false) ∧
    attempt_direct_p2p ⟨none, some 40000⟩ ⟨true, Except.ok (), false⟩ 9 =
      (Channel.tor 9, []) :=
  ⟨Or.inl rfl,
   attempt_direct_no_nat_fallback ⟨none, some 40000⟩ ⟨true, Except.ok (), false⟩ 9
     (Or.inl rfl)⟩

/-- NAT info with a valid host and port, for the C2 counterexample. -/
def natW : NatInfo := ⟨some "host", some 40000⟩

/-- Environment in which the TCP connect succeeds and the subsequent
handshake send raises. -/
def envHandshakeFailW : NetEnv := ⟨true, Except.error "sendall raised", false⟩

/-- C2 counterexample: A handshake failure after a successful
connect: `attempt_direct_p2p` does return the fallback (Tor) channel,
but the direct socket it opened (descriptor `0`) is never closed — the
trace contains its `opened` event and no `closed` event, a descriptor
leak contradicting the claim that any partially-opened direct socket is
closed. -/
theorem attempt_direct_leak_cex :
    attempt_direct_p2p natW envHandshakeFailW 9 = (Channel.tor 9, [SockEvent.opened 0]) ∧
    SockEvent.closed 0 ∉ (attempt_direct_p2p natW envHandshakeFailW 9).2 := by
  constructor
  · rfl
  · intro hmem
    simp [attempt_direct_p2p, direct_connect, natW, envHandshakeFailW,
      truthyHost, truthyPort] at hmem

/-- C2 amended: On every failure of the direct connection attempt —
connect error, timeout, or handshake failure — `attempt_direct_p2p`
returns the fallback (Tor) channel with the supplied fallback socket,
and exactly one channel kind is returned (`Channel` is a single value,
`direct` or `tor`, never both); however, a partially-opened direct
socket is **not** closed: the call never emits a `closed` event, so a
socket opened by the failed attempt leaks. -/
theorem attempt_direct_failure_fallback (nat : NatInfo) (env : NetEnv) (tor_socket : Nat)
    (hfail : env.timedOut = true ∨ env.connectOk = false ∨
      ∃ e, env.handshake = Except.error e) :
    (attempt_direct_p2p nat env tor_socket).1 = Channel.tor tor_socket ∧
    ∀ s, SockEvent.closed s ∉ (attempt_direct_p2p nat env tor_socket).2 := by
  constructor
  · unfold attempt_direct_p2p direct_connect
    rcases hfail with h | h | ⟨e, h⟩
    · simp [h]
    · rcases henv : env.timedOut with _ | _ <;>
        cases hn : truthyHost nat.external_ip && truthyPort nat.external_port <;>
          simp [henv, hn, h]
    · rcases henv : env.timedOut with _ | _ <;>
        cases hn : truthyHost nat.external_ip && truthyPort nat.external_port <;>
          cases hc : env.connectOk <;> simp [henv, hn, hc, h]
  · intro s hmem
    unfold attempt_direct_p2p direct_connect at hmem
    cases henv : env.timedOut <;>
      cases hn : truthyHost nat.external_ip && truthyPort nat.external_port <;>
        cases hc : env.connectOk <;>
          cases hh : env.handshake <;>
            simp [henv, hn, hc, hh] at hmem

theorem attempt_direct_failure_fallback_witness :
    ((⟨false, Except.ok (), false⟩ : NetEnv).timedOut = true ∨
     (⟨false, Except.ok (), false⟩ : NetEnv).connectOk = false ∨
     ∃ e, (⟨false, Except.ok (), false⟩ : NetEnv).handshake = Except.error e) ∧
    ((attempt_direct_p2p natW ⟨false, Except.ok (), false⟩ 9).1 = Channel.tor 9 ∧
     ∀ s, SockEvent.closed s ∉ (attempt_direct_p2p natW ⟨false, Except.ok (), false⟩ 9).2) :=
  ⟨Or.inr (Or.inl rfl),
   attempt_direct_failure_fallback natW ⟨false, Except.ok (), false⟩ 9 (Or.inr (Or.inl rfl))⟩

end Libra
